import Mathlib

/-!
Verification of the evaluator core of rusty_scheme (src/parser.rs, src/interpreter.rs).

The Rust code is shallowly embedded: syntax nodes and runtime values become
inductive types; the shared mutable environment chain (Rc<RefCell<Environment>>)
becomes a store, a list of frames addressed by index, threaded explicitly
through every evaluation function; the HashMap of a frame becomes an
association list with insert-overwrite semantics; the recursive evaluator
takes a fuel parameter (an embedding artifact: the Rust recursion is unbounded
and a runaway program overflows the stack; running out of fuel is the
distinguished result RuntimeError.outOfFuel, never confused with a genuine
runtime error of the program). The Rust `int` is modelled as Int, with the
two arithmetic sites (the running sum of native_plus and the subtraction of
native_minus) reducing their result into the signed 64-bit range via
wrap64, as the fixed-width Rust int silently wraps on overflow.
-/

namespace RustyScheme

/-- Syntax nodes, from parser.rs (enum Node). -/
inductive Node where
  | NIdentifier : String → Node
  | NInteger : Int → Node
  | NBoolean : Bool → Node
  | NString : String → Node
  | NList : List Node → Node
deriving Repr

mutual
/-- Models the derived Show rendering of a Node (deriving(Show) in parser.rs),
used only inside runtime-error message strings. -/
def Node.show : Node → String
  | .NIdentifier v => "NIdentifier(" ++ v ++ ")"
  | .NInteger v => "NInteger(" ++ toString v ++ ")"
  | .NBoolean v => "NBoolean(" ++ toString v ++ ")"
  | .NString v => "NString(" ++ v ++ ")"
  | .NList xs => "NList([" ++ Node.showList xs ++ "])"

/-- Comma-separated rendering of a node list, as the Show of a Vec or slice. -/
def Node.showList : List Node → String
  | [] => ""
  | [n] => Node.show n
  | n :: ns => Node.show n ++ ", " ++ Node.showList ns
end

/-- Models format of a &[Node] slice in runtime-error messages. -/
def showNodes (ns : List Node) : String := "[" ++ Node.showList ns ++ "]"

/-- The closed set of native procedures of the builtin table
(interpreter.rs PREDEFINED_FUNCTIONS). The Rust side stores raw function
pointers; the set of functions that can ever be pointed to is exactly this
enumeration, so the embedding replaces the pointer by a tag. -/
inductive NativeProc where
  | nDefine | nSet | nLambda | nIf | nPlus | nMinus
  | nAnd | nOr | nList | nQuote | nQuasiquote | nError
deriving Repr, DecidableEq

/-- Host string type, under the name Str: inside a declaration named
Value.something the plain name String resolves to the constructor
Value.String, so signatures there use this alias. -/
abbrev Str := String

/-- Host list type, under the name Lst, for the same reason as Str. -/
abbrev Lst := List

mutual
/-- Runtime values, from interpreter.rs (enum Value). -/
inductive Value where
  | Symbol (name : String) : Value
  | Integer (n : Int) : Value
  | Boolean (b : Bool) : Value
  | String (s : String) : Value
  | List (elements : List Value) : Value
  | Procedure (f : Function) : Value

/-- Procedures, from interpreter.rs (enum Function): a native function
pointer, or a user function as parameter names plus body nodes. -/
inductive Function where
  | NativeFunction (f : NativeProc) : Function
  | SchemeFunction (argNames : List String) (body : List Node) : Function
end

mutual
/-- Value::to_raw_str from interpreter.rs: unprefixed rendering. -/
def Value.to_raw_str : Value → Str
  | .Symbol v => v
  | .Integer v => toString v
  | .Boolean v => "#" ++ (if v then "t" else "f")
  | .String v => "\"" ++ v ++ "\""
  | .List vs => "(" ++ Value.raw_join vs ++ ")"
  | .Procedure _ => "#<procedure>"

/-- The space-separated element rendering built by the loop inside
Value::to_raw_str for the List case. -/
def Value.raw_join : Lst Value → Str
  | [] => ""
  | [v] => Value.to_raw_str v
  | v :: vs => Value.to_raw_str v ++ " " ++ Value.raw_join vs
end

/-- The leading quote mark character, as a string. -/
def quoteMark : String := String.singleton (Char.ofNat 39)

/-- Value::to_str from interpreter.rs: Symbols and Lists carry a leading
quote mark, everything else renders raw. -/
def Value.to_str (v : Value) : Str :=
  match v with
  | .Symbol _ => quoteMark ++ v.to_raw_str
  | .List _ => quoteMark ++ v.to_raw_str
  | _ => v.to_raw_str

/-- Function::eq from interpreter.rs. Its body is `self == other`, which on
two references resolves back to Function::eq itself: the implementation is
one unconditional recursive self-call. The fuel argument counts recursion
depth; none models the call never returning at that depth. -/
def function_eq : Nat → Function → Function → Option Bool
  | 0, _, _ => none
  | f + 1, a, b => function_eq f a b

mutual
/-- The derived PartialEq of Value (deriving(PartialEq) in interpreter.rs):
structural comparison, delegating to Function::eq for the Procedure variant.
Fuel is consumed only by function_eq. -/
def value_eq : Nat → Value → Value → Option Bool
  | _, .Symbol a, .Symbol b => some (a == b)
  | _, .Integer a, .Integer b => some (a == b)
  | _, .Boolean a, .Boolean b => some (a == b)
  | _, .String a, .String b => some (a == b)
  | f, .List a, .List b =>
      if a.length ≠ b.length then some false else value_eq_list f a b
  | f, .Procedure a, .Procedure b => function_eq f a b
  | _, _, _ => some false

/-- Elementwise comparison of equal-length Vec contents, short-circuiting
on the first difference, as the PartialEq of Vec<Value>. -/
def value_eq_list : Nat → List Value → List Value → Option Bool
  | _, [], _ => some true
  | _, _, [] => some true
  | f, a :: as_, b :: bs =>
      match value_eq f a b with
      | some true => value_eq_list f as_ bs
      | some false => some false
      | none => none
end

mutual
/-- True when a value contains no Procedure anywhere. -/
def Value.procFree : Value → Bool
  | .Symbol _ => true
  | .Integer _ => true
  | .Boolean _ => true
  | .String _ => true
  | .List vs => Value.procFreeList vs
  | .Procedure _ => false

/-- procFree over a list of values. -/
def Value.procFreeList : Lst Value → Bool
  | [] => true
  | v :: vs => Value.procFree v && Value.procFreeList vs
end

/-- Runtime errors. The source RuntimeError is a struct holding a message;
outOfFuel is the embedding artifact marking fuel exhaustion. -/
inductive RuntimeError where
  | runtimeError (message : String)
  | outOfFuel
deriving Repr, DecidableEq

/-- One environment frame, from interpreter.rs (struct Environment): a
parent link and the name-to-value map. Rc<RefCell<Environment>> references
become indices into a store (a List Environment); a frame created later
always points to an earlier frame. -/
structure Environment where
  parent : Option Nat
  values : List (String × Value)

/-- The store of all frames ever created; index = identity of the frame. -/
abbrev Store := List Environment

/-- HashMap::insert on the association list: overwrite if present,
append otherwise. -/
def insertA : List (String × Value) → String → Value → List (String × Value)
  | [], k, v => [(k, v)]
  | (k₀, v₀) :: rest, k, v =>
      if k₀ = k then (k, v) :: rest else (k₀, v₀) :: insertA rest k v

/-- HashMap::find on the association list. -/
def lookupA : List (String × Value) → String → Option Value
  | [], _ => none
  | (k₀, v₀) :: rest, k => if k₀ = k then some v₀ else lookupA rest k

/-- Environment::has from interpreter.rs: membership in this frame only,
parents are not consulted. -/
def Environment.has (e : Environment) (k : String) : Bool :=
  (lookupA e.values k).isSome

/-- Environment::set from interpreter.rs: insert into this frame. -/
def Environment.set (e : Environment) (k : String) (v : Value) : Environment :=
  { e with values := insertA e.values k v }

/-- has, addressed through the store. -/
def storeHas (s : Store) (i : Nat) (k : String) : Bool :=
  match s.get? i with
  | some e => e.has k
  | none => false

/-- set, addressed through the store: mutate frame i in place. -/
def envSet : Store → Nat → String → Value → Store
  | [], _, _, _ => []
  | e :: rest, 0, k, v => e.set k v :: rest
  | e :: rest, i + 1, k, v => e :: envSet rest i k v

/-- The parent walk of Environment::get. The bound argument is an embedding
artifact making the walk structurally terminating; since every frame points
to an earlier frame, a chain starting inside the store is always shorter
than the store, so a bound of the store length is never exhausted. -/
def envGetAux (s : Store) : Nat → Nat → String → Option Value
  | 0, _, _ => none
  | bound + 1, i, key =>
      match s.get? i with
      | none => none
      | some e =>
          match lookupA e.values key with
          | some v => some v
          | none =>
              match e.parent with
              | some p => envGetAux s bound p key
              | none => none

/-- Environment::get from interpreter.rs: first match walking from frame i
outward through parent links; never creates bindings. -/
def envGetFrom (s : Store) (i : Nat) (key : String) : Option Value :=
  envGetAux s s.length i key

/-- PREDEFINED_FUNCTIONS from interpreter.rs: the 13-entry builtin table
(lambda and the lambda glyph share one native function). -/
def PREDEFINED_FUNCTIONS : List (String × Function) :=
  [("define", .NativeFunction .nDefine),
   ("set!", .NativeFunction .nSet),
   ("lambda", .NativeFunction .nLambda),
   ("λ", .NativeFunction .nLambda),
   ("if", .NativeFunction .nIf),
   ("+", .NativeFunction .nPlus),
   ("-", .NativeFunction .nMinus),
   ("and", .NativeFunction .nAnd),
   ("or", .NativeFunction .nOr),
   ("list", .NativeFunction .nList),
   ("quote", .NativeFunction .nQuote),
   ("quasiquote", .NativeFunction .nQuasiquote),
   ("error", .NativeFunction .nError)]

/-- Environment::new_root from interpreter.rs: no parent, all builtins
installed via set. -/
def rootEnv : Environment :=
  { parent := none,
    values := PREDEFINED_FUNCTIONS.foldl
      (fun vals p => insertA vals p.1 (.Procedure p.2)) [] }

/-- The store right after new_root: the root frame alone, at index 0. -/
def rootStore : Store := [rootEnv]

/-- The parameter-name extraction loop of native_lambda: every element of
the parenthesized list must be a bare identifier. -/
def lambda_names : List Node → Except RuntimeError (List String)
  | [] => .ok []
  | .NIdentifier s :: rest =>
      match lambda_names rest with
      | .ok names => .ok (s :: names)
      | .error e => .error e
  | item :: _ =>
      .error (.runtimeError ("Unexpected argument in lambda arguments: " ++ Node.show item))

/-- The unquote-head test of quote_node: the list is non-empty and its
first element is the identifier unquote. -/
def is_unquote_list : List Node → Bool
  | .NIdentifier u :: _ => u == "unquote"
  | _ => false

/-- Wraparound of the fixed-width Rust int: reduce into the signed 64-bit
range, as the silently wrapping arithmetic of the 2014-era Rust int does
on overflow. -/
def wrap64 (x : Int) : Int := (x + 2 ^ 63) % 2 ^ 64 - 2 ^ 63

/-- native_lambda from interpreter.rs: at least two arguments, the first a
list of bare identifiers; no evaluation happens and the environment is not
captured (a SchemeFunction records parameter names and body nodes only). -/
def native_lambda : Nat → List Node → Nat → Store → Except RuntimeError (Value × Store)
  | _, args, _, s =>
      if args.length < 2 then
        .error (.runtimeError ("Must supply at least two arguments to lambda: " ++ showNodes args))
      else
        match args with
        | .NList list :: rest =>
            match lambda_names list with
            | .ok names => .ok (.Procedure (.SchemeFunction names rest), s)
            | .error e => .error e
        | _ => .error (.runtimeError ("Unexpected node for arguments in lambda: " ++ showNodes args))

set_option maxHeartbeats 3200000 in
mutual

/-- evaluate_nodes from interpreter.rs: evaluate a sequence for effect,
returning the value of the last node, or the empty list for an empty
sequence. -/
def evaluate_nodes : Nat → List Node → Nat → Store → Except RuntimeError (Value × Store)
  | _, [], _, s => .ok (.List [], s)
  | f, [n], env, s => evaluate_node f n env s
  | f, n :: ns, env, s =>
      match evaluate_node f n env s with
      | .ok (_, s₁) => evaluate_nodes f ns env s₁
      | .error e => .error e

termination_by f ns _env _s => (f, 1, ns.length)

/-- evaluate_node from interpreter.rs. Fuel is spent only when descending
into a non-empty list expression. -/
def evaluate_node : Nat → Node → Nat → Store → Except RuntimeError (Value × Store)
  | 0, _, _, _ => .error .outOfFuel
  | _ + 1, .NIdentifier v, env, s =>
      match envGetFrom s env v with
      | some val => .ok (val, s)
      | none => .error (.runtimeError ("Identifier not found: " ++ Node.show (.NIdentifier v)))
  | _ + 1, .NInteger v, _, s => .ok (.Integer v, s)
  | _ + 1, .NBoolean v, _, s => .ok (.Boolean v, s)
  | _ + 1, .NString v, _, s => .ok (.String v, s)
  | f + 1, .NList vec, env, s =>
      if vec.length > 0 then evaluate_expression f vec env s
      else .ok (.List [], s)

termination_by f _n _env _s => (f, 0, 0)

/-- quote_node from interpreter.rs: literal conversion, except that in
quasi mode a list headed by the identifier unquote evaluates its single
argument. -/
def quote_node : Nat → Node → Bool → Nat → Store → Except RuntimeError (Value × Store)
  | _, .NIdentifier v, _, _, s => .ok (.Symbol v, s)
  | _, .NInteger v, _, _, s => .ok (.Integer v, s)
  | _, .NBoolean v, _, _, s => .ok (.Boolean v, s)
  | _, .NString v, _, _, s => .ok (.String v, s)
  | f, .NList vec, quasi, env, s =>
      if quasi && is_unquote_list vec then
        match vec with
        | [_, x] => evaluate_node f x env s
        | _ => .error (.runtimeError ("Must supply exactly one argument to unquote: " ++ showNodes vec))
      else
        match quote_list f vec quasi env s with
        | .ok (vs, s₁) => .ok (.List vs, s₁)
        | .error e => .error e

termination_by f n _quasi _env _s => (f, 1, sizeOf n)

/-- The element loop of quote_node for the list case. -/
def quote_list : Nat → List Node → Bool → Nat → Store → Except RuntimeError (List Value × Store)
  | _, [], _, _, s => .ok ([], s)
  | f, n :: rest, quasi, env, s =>
      match quote_node f n quasi env s with
      | .error e => .error e
      | .ok (v, s₁) =>
          match quote_list f rest quasi env s₁ with
          | .error e => .error e
          | .ok (vs, s₂) => .ok (v :: vs, s₂)

termination_by f ns _quasi _env _s => (f, 1, sizeOf ns)

/-- evaluate_expression from interpreter.rs: the first element must reduce
to a Procedure, which is applied to the raw remaining nodes. -/
def evaluate_expression : Nat → List Node → Nat → Store → Except RuntimeError (Value × Store)
  | _, [], _, _ =>
      .error (.runtimeError ("Can" ++ quoteMark ++ "t evaluate an empty expression: " ++ showNodes []))
  | f, first :: rest, env, s =>
      match evaluate_node f first env s with
      | .error e => .error e
      | .ok (v, s₁) =>
          match v with
          | .Procedure fn => apply_function f fn rest env s₁
          | _ => .error (.runtimeError ("First element in an expression must be a procedure: " ++ Value.to_str v))

termination_by f _ns _env _s => (f, 5, 0)

/-- apply_function from interpreter.rs. A native function pointer is
invoked on the raw argument nodes (the dispatch over the closed table is
inlined here); a Scheme function checks arity, creates one child frame of
the calling environment, evaluates the arguments in the calling
environment binding each under its parameter name in the new frame, then
evaluates the body there. -/
def apply_function : Nat → Function → List Node → Nat → Store → Except RuntimeError (Value × Store)
  | f, .NativeFunction nf, args, env, s =>
      match nf with
      | .nDefine => native_define f args env s
      | .nSet => native_set f args env s
      | .nLambda => native_lambda f args env s
      | .nIf => native_if f args env s
      | .nPlus => native_plus f args env s
      | .nMinus => native_minus f args env s
      | .nAnd => native_and f args env s
      | .nOr => native_or f args env s
      | .nList => native_list f args env s
      | .nQuote => native_quote f args env s
      | .nQuasiquote => native_quasiquote f args env s
      | .nError => native_error f args env s
  | f, .SchemeFunction argNames body, args, env, s =>
      if argNames.length ≠ args.length then
        .error (.runtimeError ("Must supply exactly " ++ toString argNames.length ++ " arguments to function: " ++ showNodes args))
      else
        match bind_args f argNames args env s.length (s ++ [{ parent := some env, values := [] }]) with
        | .error e => .error e
        | .ok s₁ => evaluate_nodes f body s.length s₁

termination_by f _fn _args _env _s => (f, 4, 0)

/-- The argument-binding loop of apply_function: each argument node is
evaluated in the calling environment env and bound in the new frame
newId. -/
def bind_args : Nat → List String → List Node → Nat → Nat → Store → Except RuntimeError Store
  | _, [], _, _, _, s => .ok s
  | _, _, [], _, _, s => .ok s
  | f, name :: names, a :: rest, env, newId, s =>
      match evaluate_node f a env s with
      | .error e => .error e
      | .ok (v, s₁) => bind_args f names rest env newId (envSet s₁ newId name v)

termination_by f names _args _env _newId _s => (f, 2, names.length)

/-- native_define from interpreter.rs. -/
def native_define : Nat → List Node → Nat → Store → Except RuntimeError (Value × Store)
  | f, [n₀, n₁], env, s =>
      match n₀ with
      | .NIdentifier name =>
          if storeHas s env name then
            .error (.runtimeError ("Duplicate define: " ++ name))
          else
            match evaluate_node f n₁ env s with
            | .ok (val, s₁) => .ok (.List [], envSet s₁ env name val)
            | .error e => .error e
      | _ => .error (.runtimeError ("Unexpected node for name in define: " ++ showNodes [n₀, n₁]))
  | _, args, _, _ => .error (.runtimeError ("Must supply exactly two arguments to define: " ++ showNodes args))

termination_by f _args _env _s => (f, 3, 0)

/-- native_set from interpreter.rs: the already-defined test is
Environment::has on the invoked frame alone. -/
def native_set : Nat → List Node → Nat → Store → Except RuntimeError (Value × Store)
  | f, [n₀, n₁], env, s =>
      match n₀ with
      | .NIdentifier name =>
          if storeHas s env name then
            match evaluate_node f n₁ env s with
            | .ok (val, s₁) => .ok (.List [], envSet s₁ env name val)
            | .error e => .error e
          else
            .error (.runtimeError ("Can" ++ quoteMark ++ "t set! an undefined variable: " ++ name))
      | _ => .error (.runtimeError ("Unexpected node for name in set!: " ++ showNodes [n₀, n₁]))
  | _, args, _, _ => .error (.runtimeError ("Must supply exactly two arguments to set!: " ++ showNodes args))

termination_by f _args _env _s => (f, 3, 0)

/-- native_if from interpreter.rs: only the selected branch is evaluated. -/
def native_if : Nat → List Node → Nat → Store → Except RuntimeError (Value × Store)
  | f, [c, t, e], env, s =>
      match evaluate_node f c env s with
      | .error err => .error err
      | .ok (cond, s₁) =>
          match cond with
          | .Boolean false => evaluate_node f e env s₁
          | _ => evaluate_node f t env s₁
  | _, args, _, _ => .error (.runtimeError ("Must supply exactly three arguments to if: " ++ showNodes args))

termination_by f _args _env _s => (f, 3, 0)

/-- native_plus from interpreter.rs. -/
def native_plus : Nat → List Node → Nat → Store → Except RuntimeError (Value × Store)
  | f, args, env, s =>
      if args.length < 2 then
        .error (.runtimeError ("Must supply at least two arguments to +: " ++ showNodes args))
      else plus_loop f args 0 env s

termination_by f _args _env _s => (f, 3, 0)

/-- The summation loop of native_plus, accumulator starting at 0. -/
def plus_loop : Nat → List Node → Int → Nat → Store → Except RuntimeError (Value × Store)
  | _, [], sum, _, s => .ok (.Integer sum, s)
  | f, n :: rest, sum, env, s =>
      match evaluate_node f n env s with
      | .error e => .error e
      | .ok (v, s₁) =>
          match v with
          | .Integer x => plus_loop f rest (wrap64 (sum + x)) env s₁
          | _ => .error (.runtimeError ("Unexpected node during +: " ++ Node.show n))

termination_by f ns _sum _env _s => (f, 2, ns.length)

/-- native_minus from interpreter.rs: both operands are evaluated before
either is checked to be an Integer. -/
def native_minus : Nat → List Node → Nat → Store → Except RuntimeError (Value × Store)
  | f, [a, b], env, s =>
      match evaluate_node f a env s with
      | .error e => .error e
      | .ok (l, s₁) =>
          match evaluate_node f b env s₁ with
          | .error e => .error e
          | .ok (r, s₂) =>
              match l with
              | .Integer x =>
                  match r with
                  | .Integer y => .ok (.Integer (wrap64 (x - y)), s₂)
                  | _ => .error (.runtimeError ("Unexpected node during -: " ++ showNodes [a, b]))
              | _ => .error (.runtimeError ("Unexpected node during -: " ++ showNodes [a, b]))
  | _, args, _, _ => .error (.runtimeError ("Must supply exactly two arguments to -: " ++ showNodes args))

termination_by f _args _env _s => (f, 3, 0)

/-- native_and from interpreter.rs. -/
def native_and : Nat → List Node → Nat → Store → Except RuntimeError (Value × Store)
  | f, args, env, s => and_loop f args (.Boolean true) env s

termination_by f _args _env _s => (f, 3, 0)

/-- The loop of native_and: result starts at Boolean true, each non-false
value replaces it, the first Boolean false returns immediately. -/
def and_loop : Nat → List Node → Value → Nat → Store → Except RuntimeError (Value × Store)
  | _, [], res, _, s => .ok (res, s)
  | f, n :: rest, _, env, s =>
      match evaluate_node f n env s with
      | .error e => .error e
      | .ok (v, s₁) =>
          match v with
          | .Boolean false => .ok (.Boolean false, s₁)
          | _ => and_loop f rest v env s₁

termination_by f ns _res _env _s => (f, 2, ns.length)

/-- native_or from interpreter.rs. -/
def native_or : Nat → List Node → Nat → Store → Except RuntimeError (Value × Store)
  | f, args, env, s => or_loop f args env s

termination_by f _args _env _s => (f, 3, 0)

/-- The loop of native_or: the first non-false value returns immediately;
if every value is Boolean false the result is Boolean false. -/
def or_loop : Nat → List Node → Nat → Store → Except RuntimeError (Value × Store)
  | _, [], _, s => .ok (.Boolean false, s)
  | f, n :: rest, env, s =>
      match evaluate_node f n env s with
      | .error e => .error e
      | .ok (v, s₁) =>
          match v with
          | .Boolean false => or_loop f rest env s₁
          | _ => .ok (v, s₁)

termination_by f ns _env _s => (f, 2, ns.length)

/-- native_list from interpreter.rs. -/
def native_list : Nat → List Node → Nat → Store → Except RuntimeError (Value × Store)
  | f, args, env, s => list_loop f args [] env s

termination_by f _args _env _s => (f, 3, 0)

/-- The element loop of native_list, collecting values in order. -/
def list_loop : Nat → List Node → List Value → Nat → Store → Except RuntimeError (Value × Store)
  | _, [], acc, _, s => .ok (.List acc, s)
  | f, n :: rest, acc, env, s =>
      match evaluate_node f n env s with
      | .error e => .error e
      | .ok (v, s₁) => list_loop f rest (acc ++ [v]) env s₁

termination_by f ns _acc _env _s => (f, 2, ns.length)

/-- native_quote from interpreter.rs. -/
def native_quote : Nat → List Node → Nat → Store → Except RuntimeError (Value × Store)
  | f, [a], env, s => quote_node f a false env s
  | _, args, _, _ => .error (.runtimeError ("Must supply exactly one argument to quote: " ++ showNodes args))

termination_by f _args _env _s => (f, 3, 0)

/-- native_quasiquote from interpreter.rs. -/
def native_quasiquote : Nat → List Node → Nat → Store → Except RuntimeError (Value × Store)
  | f, [a], env, s => quote_node f a true env s
  | _, args, _, _ => .error (.runtimeError ("Must supply exactly one argument to quasiquote: " ++ showNodes args))

termination_by f _args _env _s => (f, 3, 0)

/-- native_error from interpreter.rs: evaluates its argument and fails with
its rendered text (the source message typo, arguments, is preserved). -/
def native_error : Nat → List Node → Nat → Store → Except RuntimeError (Value × Store)
  | f, [a], env, s =>
      match evaluate_node f a env s with
      | .error e => .error e
      | .ok (v, _) => .error (.runtimeError (Value.to_str v))
  | _, args, _, _ => .error (.runtimeError ("Must supply exactly one arguments to error: " ++ showNodes args))

termination_by f _args _env _s => (f, 3, 0)

end

/-- interpret from interpreter.rs: fresh root environment, evaluate the
sequence, return the final value. -/
def interpret (fuel : Nat) (nodes : List Node) : Except RuntimeError Value :=
  match evaluate_nodes fuel nodes 0 rootStore with
  | .ok (v, _) => .ok v
  | .error e => .error e

mutual
/-- Written from the spec (4.3 and 8): without quasi-mode, quoting turns
every node into a literal value, identifiers becoming Symbols with the
same name (never lookups), literals staying themselves, lists recursing
elementwise. This is the spec-side description that quote_node with
quasi = false is proved to refine. -/
def spec_quote_literal : Node → Value
  | .NIdentifier v => .Symbol v
  | .NInteger v => .Integer v
  | .NBoolean v => .Boolean v
  | .NString v => .String v
  | .NList xs => .List (spec_quote_literal_list xs)

/-- spec_quote_literal applied to each element of a list. -/
def spec_quote_literal_list : List Node → List Value
  | [] => []
  | n :: ns => spec_quote_literal n :: spec_quote_literal_list ns
end

/-- Sequential left-to-right evaluation of nodes against environment env,
threading the store and collecting each resulting value: the shape of the
argument loops inside the native procedures. -/
inductive EvalSeq (f env : Nat) : Store → List Node → List Value → Store → Prop where
  | nil (s : Store) : EvalSeq f env s [] [] s
  | cons {n : Node} {ns : List Node} {v : Value} {vs : List Value} {s s₁ s₂ : Store} :
      evaluate_node f n env s = .ok (v, s₁) →
      EvalSeq f env s₁ ns vs s₂ →
      EvalSeq f env s (n :: ns) (v :: vs) s₂

/-- The argument-binding pass of apply_function for a user procedure:
each argument node is evaluated in the calling environment env and its
value bound under the matching parameter name in frame newId. -/
inductive BindsArgs (f env newId : Nat) : List String → List Node → Store → Store → Prop where
  | nil (s : Store) : BindsArgs f env newId [] [] s s
  | cons {name : String} {names : List String} {a : Node} {args : List Node}
      {v : Value} {s s₁ s₂ : Store} :
      evaluate_node f a env s = .ok (v, s₁) →
      BindsArgs f env newId names args (envSet s₁ newId name v) s₂ →
      BindsArgs f env newId (name :: names) (a :: args) s s₂

/-- Termination of Function::eq on a pair of inputs: some recursion depth
suffices for it to return a boolean. -/
def FunctionEqTerminates (a b : Function) : Prop :=
  ∃ f r, function_eq f a b = some r

/-- Function::eq returns nothing at any recursion depth: the self-call named
in its body is the whole computation. -/
theorem function_eq_none : ∀ (f : Nat) (a b : Function), function_eq f a b = none
  | 0, _, _ => rfl
  | f + 1, a, b => by rw [function_eq]; exact function_eq_none f a b

/-- spec_quote_literal_list is the elementwise map of spec_quote_literal. -/
theorem spec_quote_literal_list_eq_map :
    ∀ ns : List Node, spec_quote_literal_list ns = ns.map spec_quote_literal
  | [] => rfl
  | n :: ns => by rw [spec_quote_literal_list, List.map_cons, spec_quote_literal_list_eq_map ns]

mutual
/-- Without quasi-mode, quote_node is total, never touches the store or the
environment, and computes exactly the structural literal conversion. -/
theorem quote_node_false : ∀ (n : Node) (f env : Nat) (s : Store),
    quote_node f n false env s = .ok (spec_quote_literal n, s)
  | .NIdentifier v, f, env, s => by simp [quote_node, spec_quote_literal]
  | .NInteger v, f, env, s => by simp [quote_node, spec_quote_literal]
  | .NBoolean v, f, env, s => by simp [quote_node, spec_quote_literal]
  | .NString v, f, env, s => by simp [quote_node, spec_quote_literal]
  | .NList xs, f, env, s => by
      rw [quote_node.eq_def]
      simp only [Bool.false_and, Bool.false_eq_true, if_false]
      rw [quote_list_false xs f env s]
      simp [spec_quote_literal]
termination_by n _ _ _ => sizeOf n

/-- quote_list without quasi-mode: total, store untouched, elementwise. -/
theorem quote_list_false : ∀ (ns : List Node) (f env : Nat) (s : Store),
    quote_list f ns false env s = .ok (spec_quote_literal_list ns, s)
  | [], f, env, s => by simp [quote_list, spec_quote_literal_list]
  | n :: rest, f, env, s => by
      rw [quote_list.eq_def]
      dsimp only
      rw [quote_node_false n f env s]
      dsimp only
      rw [quote_list_false rest f env s]
      simp [spec_quote_literal_list]
termination_by ns _ _ _ => sizeOf ns
end

/-- Running and_loop over a prefix whose values are all non-false just
replaces the accumulator by the last of those values. -/
theorem and_loop_append {f env : Nat} {s : Store} {pre : List Node} {vs : List Value}
    {s₁ : Store} (h : EvalSeq f env s pre vs s₁) (hnf : ∀ v ∈ vs, v ≠ .Boolean false) :
    ∀ (acc : Value) (rest : List Node),
      and_loop f (pre ++ rest) acc env s = and_loop f rest (vs.getLastD acc) env s₁ := by
  induction h with
  | nil s => intro acc rest; simp
  | cons heval hseq ih =>
      intro acc rest
      rename_i n ns v vs' s' s₁' s₂'
      rw [List.cons_append, and_loop.eq_def]
      simp only [heval]
      have hv : v ≠ .Boolean false := hnf v (List.mem_cons_self v vs')
      have hrest : ∀ w ∈ vs', w ≠ .Boolean false := fun w hw => hnf w (List.mem_cons_of_mem v hw)
      rw [List.getLastD_cons]
      cases v with
      | Boolean b =>
          cases b with
          | false => exact absurd rfl hv
          | true => exact ih hrest _ rest
      | Symbol a => exact ih hrest _ rest
      | Integer a => exact ih hrest _ rest
      | String a => exact ih hrest _ rest
      | List a => exact ih hrest _ rest
      | Procedure a => exact ih hrest _ rest

/-- Running or_loop over a prefix evaluating entirely to Boolean false
skips that prefix. -/
theorem or_loop_append {f env : Nat} {s : Store} {pre : List Node} {vs : List Value}
    {s₁ : Store} (h : EvalSeq f env s pre vs s₁) (hf : ∀ v ∈ vs, v = .Boolean false) :
    ∀ rest : List Node, or_loop f (pre ++ rest) env s = or_loop f rest env s₁ := by
  induction h with
  | nil s => intro rest; simp
  | cons heval hseq ih =>
      intro rest
      rename_i n ns v vs' s' s₁' s₂'
      rw [List.cons_append, or_loop.eq_def]
      simp only [heval]
      have hv : v = .Boolean false := hf v (List.mem_cons_self v vs')
      have hrest : ∀ w ∈ vs', w = .Boolean false := fun w hw => hf w (List.mem_cons_of_mem v hw)
      subst hv
      exact ih hrest rest

/-- Running plus_loop over a prefix evaluating entirely to Integers only
moves the accumulator along. -/
theorem plus_loop_append {f env : Nat} {s : Store} {pre : List Node} {vs : List Value}
    {s₁ : Store} (h : EvalSeq f env s pre vs s₁) (hi : ∀ v ∈ vs, ∃ k, v = .Integer k) :
    ∀ (acc : Int) (rest : List Node), ∃ acc₁,
      plus_loop f (pre ++ rest) acc env s = plus_loop f rest acc₁ env s₁ := by
  induction h with
  | nil s => intro acc rest; exact ⟨acc, rfl⟩
  | cons heval hseq ih =>
      intro acc rest
      rename_i n ns v vs' s' s₁' s₂'
      rw [List.cons_append, plus_loop.eq_def]
      simp only [heval]
      obtain ⟨k, hk⟩ := hi v (List.mem_cons_self v vs')
      have hrest : ∀ w ∈ vs', ∃ k, w = .Integer k := fun w hw => hi w (List.mem_cons_of_mem v hw)
      subst hk
      dsimp only
      exact ih hrest (wrap64 (acc + k)) rest

/-- wrap64 absorbs an already wrapped left summand: the wrapped value
depends only on the residue class of its argument. -/
theorem wrap64_add_left (x y : Int) : wrap64 (wrap64 x + y) = wrap64 (x + y) := by
  unfold wrap64
  have h : (x + 2 ^ 63) % 2 ^ 64 - 2 ^ 63 + y + 2 ^ 63
      = x + y + 2 ^ 63 + 2 ^ 64 * (-((x + 2 ^ 63) / 2 ^ 64)) := by
    rw [Int.emod_def]
    ring
  rw [h, Int.add_mul_emod_self_left]

/-- wrap64 is idempotent. -/
theorem wrap64_wrap64 (x : Int) : wrap64 (wrap64 x) = wrap64 x := by
  have h := wrap64_add_left x 0
  simpa using h

/-- wrap64 is the identity on the signed 64-bit range. -/
theorem wrap64_eq_self {x : Int} (h₁ : -(2 ^ 63) ≤ x) (h₂ : x < 2 ^ 63) : wrap64 x = x := by
  have e : (2 : Int) ^ 64 = 2 ^ 63 + 2 ^ 63 := by norm_num
  unfold wrap64
  rw [Int.emod_eq_of_lt (by linarith) (by rw [e]; linarith)]
  ring

/-- bind_args succeeds and produces exactly the store described by a
BindsArgs derivation. -/
theorem bind_args_of_BindsArgs {f env newId : Nat} :
    ∀ {names : List String} {args : List Node} {s s₁ : Store},
      BindsArgs f env newId names args s s₁ →
      bind_args f names args env newId s = .ok s₁ := by
  intro names args s s₁ h
  induction h with
  | nil s => rw [bind_args]
  | cons heval hbind ih =>
      rw [bind_args.eq_def]
      simp only [heval]
      exact ih

/-- A BindsArgs derivation pairs parameters and arguments one to one. -/
theorem BindsArgs.length_eq {f env newId : Nat} :
    ∀ {names : List String} {args : List Node} {s s₁ : Store},
      BindsArgs f env newId names args s s₁ → names.length = args.length := by
  intro names args s s₁ h
  induction h with
  | nil s => rfl
  | cons heval hbind ih => simp [ih]

mutual
/-- Value equality terminates whenever the left operand holds no
Procedure. -/
theorem value_eq_total : ∀ (a : Value), Value.procFree a = true →
    ∀ (f : Nat) (b : Value), ∃ r, value_eq f a b = some r
  | .Symbol x, _, f, b => by cases b <;> simp [value_eq]
  | .Integer x, _, f, b => by cases b <;> simp [value_eq]
  | .Boolean x, _, f, b => by cases b <;> simp [value_eq]
  | .String x, _, f, b => by cases b <;> simp [value_eq]
  | .List xs, h, f, b => by
      cases b with
      | List bs =>
          rw [value_eq.eq_def]
          dsimp only
          by_cases hlen : xs.length = bs.length
          · rw [if_neg (by simp [hlen])]
            exact value_eq_list_total xs (by simpa [Value.procFree] using h) f bs
          · rw [if_pos (by simpa using hlen)]
            exact ⟨false, rfl⟩
      | Symbol y => simp [value_eq]
      | Integer y => simp [value_eq]
      | Boolean y => simp [value_eq]
      | String y => simp [value_eq]
      | Procedure y => simp [value_eq]
  | .Procedure x, h, f, b => by simp [Value.procFree] at h
termination_by a _ _ _ => sizeOf a

/-- Elementwise Value-list equality terminates when the left list holds no
Procedure. -/
theorem value_eq_list_total : ∀ (as_ : List Value), Value.procFreeList as_ = true →
    ∀ (f : Nat) (bs : List Value), ∃ r, value_eq_list f as_ bs = some r
  | [], _, f, bs => by cases bs <;> simp [value_eq_list]
  | a :: rest, h, f, bs => by
      cases bs with
      | nil => simp [value_eq_list]
      | cons b brest =>
          have ha : Value.procFree a = true := by
            have hh := h; rw [Value.procFreeList] at hh; exact (Bool.and_eq_true _ _ |>.mp hh).1
          have hrest : Value.procFreeList rest = true := by
            have hh := h; rw [Value.procFreeList] at hh; exact (Bool.and_eq_true _ _ |>.mp hh).2
          obtain ⟨r, hr⟩ := value_eq_total a ha f b
          rw [value_eq_list.eq_def]
          dsimp only
          rw [hr]
          cases r with
          | true => exact value_eq_list_total rest hrest f brest
          | false => exact ⟨false, rfl⟩
termination_by as_ _ _ _ => sizeOf as_
end

/-- intercalate.go peels a prefix of its accumulator. -/
theorem intercalate_go_append (sep : String) :
    ∀ (xs : List String) (acc₁ acc₂ : String),
      String.intercalate.go (acc₁ ++ acc₂) sep xs = acc₁ ++ String.intercalate.go acc₂ sep xs
  | [], acc₁, acc₂ => by simp [String.intercalate.go]
  | a :: as_, acc₁, acc₂ => by
      rw [String.intercalate.go, String.intercalate.go]
      rw [show acc₁ ++ acc₂ ++ sep ++ a = acc₁ ++ (acc₂ ++ sep ++ a) by
        simp [String.append_assoc]]
      exact intercalate_go_append sep as_ acc₁ (acc₂ ++ sep ++ a)

/-- The element rendering of a Value list is the space-intercalation of the
unprefixed renderings. -/
theorem raw_join_eq_intercalate :
    ∀ vs : List Value, Value.raw_join vs = String.intercalate (" ") (vs.map Value.to_raw_str)
  | [] => by simp [Value.raw_join, String.intercalate]
  | [v] => by simp [Value.raw_join, String.intercalate, String.intercalate.go]
  | v :: w :: vs => by
      rw [Value.raw_join.eq_def]
      dsimp only
      rw [raw_join_eq_intercalate (w :: vs)]
      rw [List.map_cons, List.map_cons, String.intercalate, String.intercalate]
      conv_rhs => rw [String.intercalate.go.eq_def]
      rw [List.map_cons]
      dsimp only
      rw [intercalate_go_append]



/-- Claim C6: quoting without quasi-mode is a fixed point on literals and
performs no lookups: for every fuel, environment and store, quote_node
returns the purely structural literal conversion of the node and leaves the
store untouched — an Integer, Boolean or String node yields the identical
literal Value; an Identifier node yields a Symbol carrying the same name,
never an environment lookup, and never fails even when the name is unbound
(the environment is universally quantified); a list node yields the List of
its recursively quoted elements. -/
theorem C6_quote_literal_fixed_point :
    (∀ f env s n, quote_node f n false env s = .ok (spec_quote_literal n, s)) ∧
    (∀ v, spec_quote_literal (.NInteger v) = .Integer v) ∧
    (∀ b, spec_quote_literal (.NBoolean b) = .Boolean b) ∧
    (∀ str, spec_quote_literal (.NString str) = .String str) ∧
    (∀ name, spec_quote_literal (.NIdentifier name) = .Symbol name) ∧
    (∀ xs, spec_quote_literal (.NList xs) = .List (xs.map spec_quote_literal)) :=
  ⟨fun f env s n => quote_node_false n f env s,
   fun _ => rfl, fun _ => rfl, fun _ => rfl, fun _ => rfl,
   fun xs => by rw [spec_quote_literal, spec_quote_literal_list_eq_map]⟩

/-- Claim C9: rendering a Value to its canonical textual form: Symbols and
Lists are prefixed with the quote mark, strings are wrapped in double
quotes, Booleans render as #t and #f, procedures render as the opaque
placeholder, and a list renders its elements space-separated inside
parentheses using the unprefixed form of each nested element; in
particular the list holding the symbol a renders as the quote mark
followed by (a), Integer 5 renders as 5, and Boolean false as #f. -/
theorem C9_value_rendering :
    (∀ name, Value.to_str (.Symbol name) = quoteMark ++ name) ∧
    (∀ vs, Value.to_str (.List vs)
        = quoteMark ++ "(" ++ String.intercalate (" ") (vs.map Value.to_raw_str) ++ ")") ∧
    (∀ str, Value.to_str (.String str) = "\"" ++ str ++ "\"") ∧
    (Value.to_str (.Boolean true) = "#t" ∧ Value.to_str (.Boolean false) = "#f") ∧
    (∀ fn, Value.to_str (.Procedure fn) = "#<procedure>") ∧
    (∀ n, Value.to_str (.Integer n) = toString n) ∧
    Value.to_str (.List [.Symbol ("a")]) = quoteMark ++ "(a)" ∧
    Value.to_str (.Integer 5) = "5" ∧
    Value.to_str (.Boolean false) = "#f" := by
  refine ⟨fun name => rfl, fun vs => ?_, fun str => rfl, ⟨rfl, rfl⟩, fun fn => rfl,
    fun n => rfl, ?_, rfl, rfl⟩
  · rw [Value.to_str]
    rw [Value.to_raw_str, raw_join_eq_intercalate]
    simp [String.append_assoc]
  · simp [Value.to_str, Value.to_raw_str, Value.raw_join]

/-- Claim C10, counterexample: the Function::eq implementation does not
terminate even on the simplest concrete input — no recursion depth returns
a boolean when comparing the native if procedure with itself, because the
body of Function::eq is one unconditional recursive self-call. -/
theorem C10_function_eq_counterexample :
    ¬ FunctionEqTerminates (.NativeFunction .nIf) (.NativeFunction .nIf) := by
  rintro ⟨f, r, h⟩
  rw [function_eq_none] at h
  cases h

/-- Claim C10, amended: Function::eq never returns — at every recursion
depth and on every pair of Functions it produces no boolean — so equality
comparison of two Procedure values does not terminate; Value equality does
terminate, returning a boolean, whenever the left operand contains no
Procedure anywhere. -/
theorem C10_equality_termination :
    (∀ f a b, function_eq f a b = none) ∧
    (∀ a, Value.procFree a = true → ∀ f b, ∃ r, value_eq f a b = some r) :=
  ⟨function_eq_none, value_eq_total⟩

/-- Witness for the amended claim C10 at concrete inputs. -/
theorem C10_equality_termination_witness :
    function_eq 5 (.NativeFunction .nPlus) (.NativeFunction .nPlus) = none ∧
    ∃ r, value_eq 0 (.Integer 0) (.Integer 1) = some r :=
  ⟨C10_equality_termination.1 5 _ _,
   C10_equality_termination.2 (.Integer 0) (by simp [Value.procFree]) 0 (.Integer 1)⟩

/-- Claim C1, counterexample: in the store holding a root frame that binds
x and an empty child frame whose parent is the root, the name x is bound in
the chain reachable from the child frame, yet set! invoked against the
child frame fails with a runtime error, because the already-defined test of
native_set consults Environment::has of the local frame only. -/
theorem C1_set_counterexample :
    envGetFrom [⟨none, [(("x"), .Integer 0)]⟩, ⟨some 0, []⟩] 1 ("x") = some (.Integer 0) ∧
    native_set 1 [.NIdentifier ("x"), .NInteger 1] 1 [⟨none, [(("x"), .Integer 0)]⟩, ⟨some 0, []⟩]
      = .error (.runtimeError ("Can" ++ quoteMark ++ "t set! an undefined variable: x")) := by
  constructor
  · rfl
  · rw [native_set.eq_def]
    dsimp only
    rw [if_neg (by simp [storeHas, Environment.has, lookupA])]
    rfl

/-- Claim C1, amended: set! on a bare identifier succeeds if and only if
the name is already bound in the local frame of the environment the call
runs against (parent frames are not consulted); on success it evaluates
the value expression, overwrites the binding in that frame, and returns
the empty list; when the name is not bound in that local frame it fails
with a runtime error without evaluating the value expression. -/
theorem C1_set_local_frame :
    (∀ f name w env s v s₁, storeHas s env name = true →
        evaluate_node f w env s = .ok (v, s₁) →
        native_set f [.NIdentifier name, w] env s = .ok (.List [], envSet s₁ env name v)) ∧
    (∀ f name w env s, storeHas s env name = false →
        native_set f [.NIdentifier name, w] env s
          = .error (.runtimeError ("Can" ++ quoteMark ++ "t set! an undefined variable: " ++ name))) := by
  constructor
  · intro f name w env s v s₁ hhas heval
    rw [native_set.eq_def]
    dsimp only
    rw [if_pos hhas, heval]
  · intro f name w env s hhas
    rw [native_set.eq_def]
    dsimp only
    rw [if_neg (by simp [hhas])]

/-- Witness for the amended claim C1 at concrete inputs. -/
theorem C1_set_local_frame_witness :
    native_set (0+1) [.NIdentifier ("x"), .NInteger 7] 0 [⟨none, [(("x"), .Integer 0)]⟩]
      = .ok (.List [], envSet [⟨none, [(("x"), .Integer 0)]⟩] 0 ("x") (.Integer 7)) :=
  C1_set_local_frame.1 (0+1) ("x") (.NInteger 7) 0 _ (.Integer 7) _
    (by simp [storeHas, Environment.has, lookupA]) (by simp [evaluate_node])



/-- Claim C2: applying a user-defined procedure whose parameter count
equals the argument count appends exactly one new frame whose parent is
the calling environment (a SchemeFunction stores no defining environment
at all), evaluates each argument node in the calling environment binding
the result under the matching parameter name in the new frame (the
BindsArgs hypothesis), then evaluates the body sequence in the new frame
and returns its result; when the counts differ it fails with an arity
error naming the expected count. -/
theorem C2_apply_user_procedure :
    (∀ f names body args env s, names.length ≠ args.length →
        apply_function f (.SchemeFunction names body) args env s
          = .error (.runtimeError ("Must supply exactly " ++ toString names.length
              ++ " arguments to function: " ++ showNodes args))) ∧
    (∀ f names body args env s s₁,
        BindsArgs f env s.length names args (s ++ [{ parent := some env, values := [] }]) s₁ →
        apply_function f (.SchemeFunction names body) args env s
          = evaluate_nodes f body s.length s₁) := by
  constructor
  · intro f names body args env s hne
    rw [apply_function.eq_def]
    dsimp only
    rw [if_pos hne]
  · intro f names body args env s s₁ h
    have hlen := BindsArgs.length_eq h
    rw [apply_function.eq_def]
    dsimp only
    rw [if_neg (by omega)]
    rw [bind_args_of_BindsArgs h]

/-- Witness for claim C2 at concrete inputs. -/
theorem C2_apply_user_procedure_witness :
    apply_function (0+1) (.SchemeFunction [("x")] [.NIdentifier ("x")]) [.NInteger 42] 0 [⟨none, []⟩]
      = evaluate_nodes (0+1) [.NIdentifier ("x")] 1
          (envSet ([⟨none, []⟩] ++ [{ parent := some 0, values := [] }]) 1 ("x") (.Integer 42)) :=
  C2_apply_user_procedure.2 (0+1) [("x")] [.NIdentifier ("x")] [.NInteger 42] 0 [⟨none, []⟩] _
    (BindsArgs.cons (by simp [evaluate_node]) (BindsArgs.nil _))

/-- Claim C3: if requires exactly three arguments; it evaluates the
condition, Boolean false selects the third (else) argument and any other
value selects the second (then) argument; only the selected branch is
evaluated — the conclusion of each conditional part never mentions the
unselected branch — and concretely a program placing an error call in the
unselected branch still succeeds. -/
theorem C3_if_spec :
    (∀ f args env s, args.length ≠ 3 →
        native_if f args env s = .error (.runtimeError
          ("Must supply exactly three arguments to if: " ++ showNodes args))) ∧
    (∀ f c t e env s s₁, evaluate_node f c env s = .ok (.Boolean false, s₁) →
        native_if f [c, t, e] env s = evaluate_node f e env s₁) ∧
    (∀ f c t e env s v s₁, evaluate_node f c env s = .ok (v, s₁) → v ≠ .Boolean false →
        native_if f [c, t, e] env s = evaluate_node f t env s₁) ∧
    (∀ f, interpret (f + 2) [.NList [.NIdentifier ("if"), .NBoolean false,
        .NList [.NIdentifier ("error"), .NString ("boom")], .NInteger 7]] = .ok (.Integer 7)) ∧
    (∀ f, interpret (f + 2) [.NList [.NIdentifier ("if"), .NInteger 0, .NInteger 5,
        .NList [.NIdentifier ("error"), .NString ("boom")]]] = .ok (.Integer 5)) := by
  refine ⟨?_, ?_, ?_, ?_, ?_⟩
  · intro f args env s hne
    rcases args with _ | ⟨a, _ | ⟨b, _ | ⟨c, _ | ⟨d, rest⟩⟩⟩⟩ <;>
      first
        | (exact absurd rfl hne)
        | (rw [native_if.eq_def])
  · intro f c t e env s s₁ h
    rw [native_if.eq_def]
    dsimp only
    rw [h]
  · intro f c t e env s v s₁ h hv
    rw [native_if.eq_def]
    dsimp only
    rw [h]
    cases v with
    | Boolean b => cases b with
        | false => exact absurd rfl hv
        | true => rfl
    | Symbol a => rfl
    | Integer a => rfl
    | String a => rfl
    | List a => rfl
    | Procedure a => rfl
  · intro f
    simp [show f + 2 = (f + 1) + 1 from rfl, interpret, evaluate_nodes, evaluate_node,
      evaluate_expression, apply_function, native_if,
      show envGetFrom rootStore 0 ("if") = some (.Procedure (.NativeFunction .nIf)) from rfl]
  · intro f
    simp [show f + 2 = (f + 1) + 1 from rfl, interpret, evaluate_nodes, evaluate_node,
      evaluate_expression, apply_function, native_if,
      show envGetFrom rootStore 0 ("if") = some (.Procedure (.NativeFunction .nIf)) from rfl]

/-- Witness for claim C3 at concrete inputs. -/
theorem C3_if_spec_witness :
    native_if (0+1) [.NBoolean false, .NInteger 1, .NInteger 2] 0 []
      = evaluate_node (0+1) (.NInteger 2) 0 [] :=
  C3_if_spec.2.1 (0+1) (.NBoolean false) (.NInteger 1) (.NInteger 2) 0 [] []
    (by simp [evaluate_node])

/-- Claim C8: define requires exactly two arguments, the first a bare
identifier; if the name already exists in the current innermost frame it
fails with a duplicate-define error without evaluating the second argument
(the value node is universally quantified in that part, and the error
result carries no store mutation); otherwise it evaluates the second
argument, binds the result under the name in the current frame, and
returns the empty list. -/
theorem C8_define_spec :
    (∀ f args env s, args.length ≠ 2 →
        native_define f args env s = .error (.runtimeError
          ("Must supply exactly two arguments to define: " ++ showNodes args))) ∧
    (∀ f n₀ n₁ env s, (∀ name, n₀ ≠ .NIdentifier name) →
        native_define f [n₀, n₁] env s = .error (.runtimeError
          ("Unexpected node for name in define: " ++ showNodes [n₀, n₁]))) ∧
    (∀ f name w env s, storeHas s env name = true →
        native_define f [.NIdentifier name, w] env s
          = .error (.runtimeError ("Duplicate define: " ++ name))) ∧
    (∀ f name w env s v s₁, storeHas s env name = false →
        evaluate_node f w env s = .ok (v, s₁) →
        native_define f [.NIdentifier name, w] env s = .ok (.List [], envSet s₁ env name v)) := by
  refine ⟨?_, ?_, ?_, ?_⟩
  · intro f args env s hne
    rcases args with _ | ⟨a, _ | ⟨b, _ | ⟨c, rest⟩⟩⟩ <;>
      first
        | (exact absurd rfl hne)
        | (rw [native_define.eq_def])
  · intro f n₀ n₁ env s hn
    cases n₀ with
    | NIdentifier name => exact absurd rfl (hn name)
    | NInteger v => rw [native_define.eq_def]
    | NBoolean v => rw [native_define.eq_def]
    | NString v => rw [native_define.eq_def]
    | NList vs => rw [native_define.eq_def]
  · intro f name w env s hhas
    rw [native_define.eq_def]
    dsimp only
    rw [if_pos hhas]
  · intro f name w env s v s₁ hhas heval
    rw [native_define.eq_def]
    dsimp only
    rw [if_neg (by simp [hhas]), heval]

/-- Witness for claim C8 at concrete inputs. -/
theorem C8_define_spec_witness :
    native_define (0+1) [.NIdentifier ("y"), .NInteger 3] 0 [⟨none, []⟩]
      = .ok (.List [], envSet [⟨none, []⟩] 0 ("y") (.Integer 3)) :=
  C8_define_spec.2.2.2 (0+1) ("y") (.NInteger 3) 0 [⟨none, []⟩] (.Integer 3) _
    (by simp [storeHas, Environment.has, lookupA]) (by simp [evaluate_node])



/-- Claim C4, counterexample: the Rust int is fixed-width and its
arithmetic wraps, so adding 1 to the largest signed 64-bit integer does
not produce the mathematical sum: the interpreter returns the wrapped
value, the negative lower end of the range, refuting the unbounded
a + b + c reading of the claim at a concrete input. -/
theorem C4_wrap_counterexample :
    interpret (0 + 1 + 1)
        [.NList [.NIdentifier ("+"), .NInteger (2 ^ 63 - 1), .NInteger 1, .NInteger 0]]
        = .ok (.Integer (-(2 ^ 63))) ∧
    interpret (0 + 1 + 1)
        [.NList [.NIdentifier ("+"), .NInteger (2 ^ 63 - 1), .NInteger 1, .NInteger 0]]
        ≠ .ok (.Integer ((2 ^ 63 - 1) + 1 + 0)) := by
  have h : interpret (0 + 1 + 1)
      [.NList [.NIdentifier ("+"), .NInteger (2 ^ 63 - 1), .NInteger 1, .NInteger 0]]
      = .ok (.Integer (wrap64 ((2 ^ 63 - 1) + 1 + 0))) := by
    simp [interpret, evaluate_nodes, evaluate_node, evaluate_expression, apply_function,
      native_plus, plus_loop, wrap64_add_left, wrap64_wrap64,
      show envGetFrom rootStore 0 ("+") = some (.Procedure (.NativeFunction .nPlus)) from rfl]
  have hw : wrap64 ((2 ^ 63 - 1) + 1 + 0) = -(2 ^ 63) := by decide
  refine ⟨h.trans (by rw [hw]), ?_⟩
  rw [h, hw]
  intro hc
  rw [Except.ok.injEq, Value.Integer.injEq] at hc
  norm_num at hc

/-- Claim C4, amended: the Rust int is a fixed-width 64-bit integer whose
arithmetic wraps silently on overflow, so for all integers a, b and c the
expression adding a, b and c evaluates to the Integer wrap64 (a + b + c) —
equal to the plain sum whenever that sum lies in the signed 64-bit
range — and the expression subtracting b from a evaluates to the Integer
wrap64 (a - b), equal to the plain difference whenever it lies in the
signed 64-bit range; plus requires at least two arguments, evaluates them
left to right, and fails with a type error at an argument that does not
reduce to an Integer; minus requires exactly two arguments and fails with
a type error when either operand does not reduce to an Integer. -/
theorem C4_arithmetic :
    (∀ (f : Nat) (a b c : Int), interpret (f + 2)
        [.NList [.NIdentifier ("+"), .NInteger a, .NInteger b, .NInteger c]]
          = .ok (.Integer (wrap64 (a + b + c)))) ∧
    (∀ (f : Nat) (a b c : Int), -(2 ^ 63) ≤ a + b + c → a + b + c < 2 ^ 63 →
        interpret (f + 2)
          [.NList [.NIdentifier ("+"), .NInteger a, .NInteger b, .NInteger c]]
            = .ok (.Integer (a + b + c))) ∧
    (∀ (f : Nat) (a b : Int), interpret (f + 2)
        [.NList [.NIdentifier ("-"), .NInteger a, .NInteger b]]
          = .ok (.Integer (wrap64 (a - b)))) ∧
    (∀ (f : Nat) (a b : Int), -(2 ^ 63) ≤ a - b → a - b < 2 ^ 63 →
        interpret (f + 2)
          [.NList [.NIdentifier ("-"), .NInteger a, .NInteger b]]
            = .ok (.Integer (a - b))) ∧
    (∀ f args env s, args.length < 2 →
        native_plus f args env s = .error (.runtimeError
          ("Must supply at least two arguments to +: " ++ showNodes args))) ∧
    (∀ f env s pre vs s₁ n v s₂ rest, 2 ≤ (pre ++ n :: rest).length →
        EvalSeq f env s pre vs s₁ → (∀ w ∈ vs, ∃ k, w = .Integer k) →
        evaluate_node f n env s₁ = .ok (v, s₂) → (∀ k, v ≠ .Integer k) →
        native_plus f (pre ++ n :: rest) env s
          = .error (.runtimeError ("Unexpected node during +: " ++ Node.show n))) ∧
    (∀ f args env s, args.length ≠ 2 →
        native_minus f args env s = .error (.runtimeError
          ("Must supply exactly two arguments to -: " ++ showNodes args))) ∧
    (∀ f a b env s va vb s₁ s₂, evaluate_node f a env s = .ok (va, s₁) →
        evaluate_node f b env s₁ = .ok (vb, s₂) →
        ((∀ k, va ≠ .Integer k) ∨ (∀ k, vb ≠ .Integer k)) →
        native_minus f [a, b] env s = .error (.runtimeError
          ("Unexpected node during -: " ++ showNodes [a, b]))) := by
  refine ⟨?_, ?_, ?_, ?_, ?_, ?_, ?_, ?_⟩
  · intro f a b c
    simp [show f + 2 = (f + 1) + 1 from rfl, interpret, evaluate_nodes, evaluate_node,
      evaluate_expression, apply_function, native_plus, plus_loop, wrap64_add_left,
      show envGetFrom rootStore 0 ("+") = some (.Procedure (.NativeFunction .nPlus)) from rfl]
  · intro f a b c h₁ h₂
    simp [show f + 2 = (f + 1) + 1 from rfl, interpret, evaluate_nodes, evaluate_node,
      evaluate_expression, apply_function, native_plus, plus_loop, wrap64_add_left,
      show envGetFrom rootStore 0 ("+") = some (.Procedure (.NativeFunction .nPlus)) from rfl]
    exact wrap64_eq_self h₁ h₂
  · intro f a b
    simp [show f + 2 = (f + 1) + 1 from rfl, interpret, evaluate_nodes, evaluate_node,
      evaluate_expression, apply_function, native_minus,
      show envGetFrom rootStore 0 ("-") = some (.Procedure (.NativeFunction .nMinus)) from rfl]
  · intro f a b h₁ h₂
    simp [show f + 2 = (f + 1) + 1 from rfl, interpret, evaluate_nodes, evaluate_node,
      evaluate_expression, apply_function, native_minus,
      show envGetFrom rootStore 0 ("-") = some (.Procedure (.NativeFunction .nMinus)) from rfl]
    exact wrap64_eq_self h₁ h₂
  · intro f args env s hlt
    rw [native_plus.eq_def]
    dsimp only
    rw [if_pos hlt]
  · intro f env s pre vs s₁ n v s₂ rest hlen hseq hints heval hv
    rw [native_plus.eq_def]
    dsimp only
    rw [if_neg (by omega)]
    obtain ⟨acc₁, hacc⟩ := plus_loop_append hseq hints 0 (n :: rest)
    rw [hacc]
    rw [plus_loop.eq_def]
    dsimp only
    rw [heval]
    cases v with
    | Integer k => exact absurd rfl (hv k)
    | Symbol x => rfl
    | Boolean x => rfl
    | String x => rfl
    | List x => rfl
    | Procedure x => rfl
  · intro f args env s hne
    rcases args with _ | ⟨a, _ | ⟨b, _ | ⟨c, rest⟩⟩⟩ <;>
      first
        | (exact absurd rfl hne)
        | (rw [native_minus.eq_def])
  · intro f a b env s va vb s₁ s₂ h₁ h₂ hk
    rw [native_minus.eq_def]
    dsimp only
    rw [h₁]
    dsimp only
    rw [h₂]
    rcases hk with hva | hvb
    · cases va with
      | Integer k => exact absurd rfl (hva k)
      | Symbol x => rfl
      | Boolean x => rfl
      | String x => rfl
      | List x => rfl
      | Procedure x => rfl
    · cases va with
      | Integer k =>
          cases vb with
          | Integer j => exact absurd rfl (hvb j)
          | Symbol x => rfl
          | Boolean x => rfl
          | String x => rfl
          | List x => rfl
          | Procedure x => rfl
      | Symbol x => rfl
      | Boolean x => rfl
      | String x => rfl
      | List x => rfl
      | Procedure x => rfl

/-- Witness for the amended claim C4 at concrete inputs. -/
theorem C4_arithmetic_witness :
    (native_plus 1 [.NIdentifier ("q")] 0 []
      = .error (.runtimeError ("Must supply at least two arguments to +: "
          ++ showNodes [.NIdentifier ("q")]))) ∧
    interpret (0 + 2) [.NList [.NIdentifier ("+"), .NInteger 1, .NInteger 2, .NInteger 3]]
      = .ok (.Integer (1 + 2 + 3)) :=
  ⟨C4_arithmetic.2.2.2.2.1 1 [.NIdentifier ("q")] 0 [] (by decide),
   C4_arithmetic.2.1 0 1 2 3 (by decide) (by decide)⟩

/-- Claim C5: and evaluates its arguments left to right and returns
Boolean false at the first argument evaluating to Boolean false, the later
arguments being arbitrary and never evaluated; otherwise it returns the
value of the last argument, or Boolean true for zero arguments; or
evaluates left to right and returns the first value that is not Boolean
false, the later arguments never evaluated; when every argument evaluates
to Boolean false, or there are zero arguments, it returns Boolean
false. -/
theorem C5_and_or :
    (∀ f env s, native_and f [] env s = .ok (.Boolean true, s)) ∧
    (∀ f env s pre vs s₁ n s₂ rest, EvalSeq f env s pre vs s₁ →
        (∀ v ∈ vs, v ≠ .Boolean false) →
        evaluate_node f n env s₁ = .ok (.Boolean false, s₂) →
        native_and f (pre ++ n :: rest) env s = .ok (.Boolean false, s₂)) ∧
    (∀ f env s ns vs s₁, EvalSeq f env s ns vs s₁ → (∀ v ∈ vs, v ≠ .Boolean false) →
        native_and f ns env s = .ok (vs.getLastD (.Boolean true), s₁)) ∧
    (∀ f env s, native_or f [] env s = .ok (.Boolean false, s)) ∧
    (∀ f env s pre vs s₁ n v s₂ rest, EvalSeq f env s pre vs s₁ →
        (∀ w ∈ vs, w = .Boolean false) →
        evaluate_node f n env s₁ = .ok (v, s₂) → v ≠ .Boolean false →
        native_or f (pre ++ n :: rest) env s = .ok (v, s₂)) ∧
    (∀ f env s ns vs s₁, EvalSeq f env s ns vs s₁ → (∀ v ∈ vs, v = .Boolean false) →
        native_or f ns env s = .ok (.Boolean false, s₁)) := by
  refine ⟨?_, ?_, ?_, ?_, ?_, ?_⟩
  · intro f env s
    rw [native_and, and_loop]
  · intro f env s pre vs s₁ n s₂ rest hseq hnf heval
    rw [native_and]
    rw [and_loop_append hseq hnf (.Boolean true) (n :: rest)]
    rw [and_loop.eq_def]
    dsimp only
    rw [heval]
  · intro f env s ns vs s₁ hseq hnf
    rw [native_and]
    rw [show ns = ns ++ [] by simp]
    rw [and_loop_append hseq hnf (.Boolean true) []]
    rw [and_loop]
  · intro f env s
    rw [native_or, or_loop]
  · intro f env s pre vs s₁ n v s₂ rest hseq hf heval hv
    rw [native_or]
    rw [or_loop_append hseq hf (n :: rest)]
    rw [or_loop.eq_def]
    dsimp only
    rw [heval]
    cases v with
    | Boolean b => cases b with
        | false => exact absurd rfl hv
        | true => rfl
    | Symbol x => rfl
    | Integer x => rfl
    | String x => rfl
    | List x => rfl
    | Procedure x => rfl
  · intro f env s ns vs s₁ hseq hf
    rw [native_or]
    rw [show ns = ns ++ [] by simp]
    rw [or_loop_append hseq hf []]
    rw [or_loop]

/-- Witness for claim C5 at concrete inputs. -/
theorem C5_and_or_witness :
    native_and (0+1) ([] ++ .NBoolean false :: [.NInteger 9]) 0 [] = .ok (.Boolean false, []) :=
  C5_and_or.2.1 (0+1) 0 [] [] [] [] (.NBoolean false) [] [.NInteger 9]
    (EvalSeq.nil []) (by intro v hv; cases hv) (by simp [evaluate_node])

/-- Claim C7: in quasi-mode, quoting a list whose first element is the
identifier unquote evaluates its single argument node with the evaluator
against the ambient environment and returns that value, also when the
unquote list sits nested below another list level; an unquote list not
carrying exactly one argument fails with an arity error; outside
quasi-mode the same unquote list receives no special treatment and is
quoted like any other list. -/
theorem C7_quasiquote_unquote :
    (∀ f x env s, quote_node f (.NList [.NIdentifier ("unquote"), x]) true env s
        = evaluate_node f x env s) ∧
    (∀ f env s rest, rest.length ≠ 1 →
        quote_node f (.NList (.NIdentifier ("unquote") :: rest)) true env s
          = .error (.runtimeError ("Must supply exactly one argument to unquote: "
              ++ showNodes (.NIdentifier ("unquote") :: rest)))) ∧
    (∀ f x env s, quote_node f (.NList [.NIdentifier ("unquote"), x]) false env s
        = .ok (.List [.Symbol ("unquote"), spec_quote_literal x], s)) ∧
    (∀ f x env s v s₁, evaluate_node f x env s = .ok (v, s₁) →
        quote_node f (.NList [.NList [.NIdentifier ("unquote"), x]]) true env s
          = .ok (.List [v], s₁)) := by
  refine ⟨?_, ?_, ?_, ?_⟩
  · intro f x env s
    rw [quote_node.eq_def]
    dsimp only
    rw [if_pos (by simp [is_unquote_list])]
  · intro f env s rest hlen
    rw [quote_node.eq_def]
    dsimp only
    rw [if_pos (by simp [is_unquote_list])]
    rcases rest with _ | ⟨x, _ | ⟨y, more⟩⟩
    · rfl
    · exact absurd rfl hlen
    · rfl
  · intro f x env s
    rw [quote_node_false]
    rw [spec_quote_literal]
    rw [show spec_quote_literal_list [.NIdentifier ("unquote"), x]
          = [.Symbol ("unquote"), spec_quote_literal x] by
      rw [spec_quote_literal_list, spec_quote_literal_list, spec_quote_literal_list,
        spec_quote_literal]]
  · intro f x env s v s₁ heval
    rw [quote_node.eq_def]
    dsimp only
    rw [if_neg (by simp [is_unquote_list])]
    rw [quote_list.eq_def]
    dsimp only
    have h1 : quote_node f (.NList [.NIdentifier ("unquote"), x]) true env s
        = evaluate_node f x env s := by
      rw [quote_node.eq_def]
      dsimp only
      rw [if_pos (by simp [is_unquote_list])]
    rw [h1, heval]
    dsimp only
    rw [quote_list]

/-- Witness for claim C7 at concrete inputs. -/
theorem C7_quasiquote_unquote_witness :
    (quote_node (0+1) (.NList (.NIdentifier ("unquote") :: [])) true 0 []
      = .error (.runtimeError ("Must supply exactly one argument to unquote: "
          ++ showNodes [.NIdentifier ("unquote")]))) ∧
    quote_node (0+1) (.NList [.NList [.NIdentifier ("unquote"), .NInteger 4]]) true 0 []
      = .ok (.List [.Integer 4], []) :=
  ⟨C7_quasiquote_unquote.2.1 (0+1) 0 [] [] (by decide),
   C7_quasiquote_unquote.2.2.2 (0+1) (.NInteger 4) 0 [] (.Integer 4) []
     (by simp [evaluate_node])⟩


end RustyScheme
